import Mathlib

/-!
Verification development for `tools/android_component_test_generator.py`.

The Python module scans Android source files for component declarations
(Activity, Service, BroadcastReceiver, ViewModel), generates Mockito test
scaffolds, keeps a Gradle build file augmented with JaCoCo configuration and
summarizes JaCoCo coverage reports.

Shallow embedding conventions:
* Python strings are Lean `String`s (lists of characters); filesystem paths
  are either `String`s (inputs) or lists of path segments (`pathlib.Path`
  values, whose constructor drops empty components).
* The regular expressions of `COMPONENT_PATTERNS` and the package pattern are
  embedded with a small backtracking matcher (`mat`) whose ordered-choice,
  greedy/lazy-star and leftmost-search behaviour follows Python's `re`
  backtracking semantics for these patterns (all of which are star-bodies that
  consume at least one character).  `re.S` is reflected by letting `.` match
  any character including newlines; `re.M` by the `lineStart` anchor.
* The filesystem is a finite map from path-segment lists to file contents;
  `print` reporting is reflected in explicit `skipped` result lists.
* Python `float` counter values (JaCoCo summary) are modelled as rationals.
-/

/-- Python `\w` on ASCII text: letters, digits and underscore. -/
def isWordChar (c : Char) : Bool := c.isAlphanum || c = '_'

/-- Python `\s` on ASCII text. -/
def isPySpace (c : Char) : Bool :=
  c = ' ' || c = '\t' || c = '\n' || c = '\r' || c = '\x0b' || c = '\x0c'

def isWordOpt : Option Char → Bool
  | some c => isWordChar c
  | none => false

/-- Regular-expression syntax used by the four component patterns and the
package pattern: character classes, sequencing, ordered alternation, greedy
and lazy stars, capture groups, `\b` and the multiline `^` anchor. -/
inductive RE where
  | eps : RE
  | cls : (Char → Bool) → RE
  | seq : RE → RE → RE
  | alt : RE → RE → RE
  | starG : RE → RE
  | starL : RE → RE
  | group : Nat → RE → RE
  | wordB : RE
  | lineStart : RE

/-- Capture list: group index paired with the captured characters. -/
abbrev Caps := List (Nat × List Char)

/-- Backtracking matcher in continuation-passing style.  `prev` is the
character just before the current position (for `\b` and `^`), `s` the rest of
the input.  Ordered alternation and the star cases reproduce Python's
backtracking preference order (greedy stars try another iteration first, lazy
stars try to exit first); an iteration that consumes nothing stops the star.
`fuel` only bounds the call depth and is chosen large enough at the top
level. -/
def mat : Nat → RE → Option Char → List Char → Caps →
    (Option Char → List Char → Caps → Option Caps) → Option Caps
  | 0, _, _, _, _, _ => none
  | fuel + 1, r, prev, s, caps, k =>
    match r with
    | .eps => k prev s caps
    | .cls p =>
      match s with
      | [] => none
      | c :: rest => if p c then k (some c) rest caps else none
    | .seq a b => mat fuel a prev s caps (fun p2 s2 c2 => mat fuel b p2 s2 c2 k)
    | .alt a b =>
      match mat fuel a prev s caps k with
      | some res => some res
      | none => mat fuel b prev s caps k
    | .group n a =>
      mat fuel a prev s caps
        (fun p2 s2 c2 => k p2 s2 ((n, s.take (s.length - s2.length)) :: c2))
    | .wordB => if isWordOpt prev ≠ isWordOpt s.head? then k prev s caps else none
    | .lineStart =>
      match prev with
      | none => k prev s caps
      | some c => if c = '\n' then k prev s caps else none
    | .starG a =>
      match mat fuel a prev s caps
          (fun p2 s2 c2 =>
            if s2.length < s.length then mat fuel (.starG a) p2 s2 c2 k else k p2 s2 c2) with
      | some res => some res
      | none => k prev s caps
    | .starL a =>
      match k prev s caps with
      | some res => some res
      | none =>
        mat fuel a prev s caps
          (fun p2 s2 c2 =>
            if s2.length < s.length then mat fuel (.starL a) p2 s2 c2 k else none)

/-- Try to match `r` at the current position (like Python's `re.match` at one
offset); succeeding as soon as the pattern is exhausted, as `re.search` does. -/
def matchAt (r : RE) (prev : Option Char) (s : List Char) : Option Caps :=
  mat (2 * s.length + 200) r prev s [] (fun _ _ c => some c)

/-- Leftmost search: try every start offset from left to right, the semantics
of Python's `re.search`. -/
def searchRE (r : RE) (prev : Option Char) (s : List Char) : Option Caps :=
  match matchAt r prev s with
  | some caps => some caps
  | none =>
    match s with
    | [] => none
    | c :: rest => searchRE r (some c) rest

def reSearch (r : RE) (text : String) : Option Caps :=
  searchRE r none text.data

/-- `match.group(1)`: the characters captured by group 1. -/
def group1 (res : Option Caps) : Option (List Char) :=
  res.bind (fun caps => (caps.find? (fun pr => pr.1 == 1)).map (fun pr => pr.2))

/-- A literal string, character by character. -/
def lit (str : String) : RE :=
  str.data.foldr (fun c r => RE.seq (RE.cls (fun d => d == c)) r) RE.eps

def spaceC : RE := RE.cls isPySpace
def wordC : RE := RE.cls isWordChar
def wdotC : RE := RE.cls (fun c => isWordChar c || c == '.')
def anyC : RE := RE.cls (fun _ => true)

/-- `x+` (greedy). -/
def plusG (a : RE) : RE := RE.seq a (RE.starG a)

/-- The shared head of the four component patterns:
`\bclass\s+(\w+).*?(extends|:)\s+` (with `re.S`, so `.` spans newlines). -/
def classHead : RE :=
  RE.seq .wordB (RE.seq (lit ("class")) (RE.seq (plusG spaceC)
    (RE.seq (RE.group 1 (plusG wordC)) (RE.seq (RE.starL anyC)
      (RE.seq (RE.group 2 (RE.alt (lit ("extends")) (lit (":")))) (plusG spaceC))))))

/-- Pattern tail `[\w\.]*?(\w*SFX)\b` (Activity / Service). -/
def suffixTail (sfx : String) : RE :=
  RE.seq (RE.starL wdotC) (RE.seq (RE.group 3 (RE.seq (RE.starG wordC) (lit sfx))) .wordB)

/-- Pattern tail `[\w\.]*?SFX\b` (BroadcastReceiver / ViewModel). -/
def exactTail (sfx : String) : RE :=
  RE.seq (RE.starL wdotC) (RE.seq (lit sfx) .wordB)

def activityPat : RE := RE.seq classHead (suffixTail ("Activity"))
def servicePat : RE := RE.seq classHead (suffixTail ("Service"))
def receiverPat : RE := RE.seq classHead (exactTail ("BroadcastReceiver"))
def viewModelPat : RE := RE.seq classHead (exactTail ("ViewModel"))

/-- `^\s*package\s+([\w\.]+)` with `re.M`. -/
def packagePat : RE :=
  RE.seq .lineStart (RE.seq (RE.starG spaceC) (RE.seq (lit ("package"))
    (RE.seq (plusG spaceC) (RE.group 1 (plusG wdotC)))))

/-- `COMPONENT_PATTERNS`, in the dictionary's (insertion) iteration order. -/
def COMPONENT_PATTERNS : List (String × RE) :=
  [("Activity", activityPat), ("Service", servicePat),
   ("BroadcastReceiver", receiverPat), ("ViewModel", viewModelPat)]

/-- Split a character list on a separator character, Python `str.split(sep)`. -/
def splitChar (sep : Char) : List Char → List (List Char)
  | [] => [[]]
  | c :: rest =>
    if c = sep then [] :: splitChar sep rest
    else
      match splitChar sep rest with
      | [] => [[c]]
      | g :: gs => (c :: g) :: gs

/-- `pathlib.Path.suffix`: the extension of the final path component; empty
when there is no dot, or the dot is the first or last character of the name. -/
def suffixOf (p : String) : String :=
  let b := (splitChar '/' p.data).getLastD []
  let r := b.reverse
  let pre := r.takeWhile (fun c => c ≠ '.')
  if 0 < pre.length ∧ pre.length + 1 < r.length then String.mk ('.' :: pre.reverse) else ""

def SUPPORTED_EXTENSIONS : List String := [".java", ".kt"]

structure Component where
  name : String
  package : String
  file_path : String
  type : String
deriving DecidableEq, Repr

/-- `re.search(r"^\s*package\s+([\w\.]+)", text, re.M)`, group 1, else `""`. -/
def extractPackage (text : String) : String :=
  match group1 (reSearch packagePat text) with
  | some cs => String.mk cs
  | none => ""

/-- `parse_component_file`.  The file's text is passed explicitly; the
`path.is_file()` filesystem test is not modelled (the text stands for the
content of an existing file), the extension test is. -/
def parse_component_file (path : String) (text : String) : List Component :=
  if SUPPORTED_EXTENSIONS.contains (suffixOf path) then
    COMPONENT_PATTERNS.filterMap (fun tp =>
      (group1 (reSearch tp.2 text)).map (fun cs =>
        Component.mk (String.mk cs) (extractPackage text) path tp.1))
  else []

/-- `Component.qualified_name`: `f"{package}.{name}"` when the package string
is truthy (non-empty), else just the name. -/
def Component.qualified_name (c : Component) : String :=
  if c.package = "" then c.name else c.package ++ "." ++ c.name

/-- `Component.test_class_name = f"{name}Test"`. -/
def Component.test_class_name (c : Component) : String := c.name ++ "Test"

/-- `package.split(".")` as strings, with the empty components that
`pathlib.Path` would drop removed. -/
def pkgSegments (p : String) : List String :=
  ((splitChar '.' p.data).map String.mk).filter (fun s => s ≠ "")

/-- The parts of `Path("app/src/test/java")`. -/
def TEST_ROOT : List String := ["app", "src", "test", "java"]

/-- `Component.test_path`, as a list of path segments:
`Path("app/src/test/java") / package_dir / f"{test_class_name}.java"`. -/
def Component.test_path (c : Component) : List String :=
  let package_dir := if c.package = "" then [] else pkgSegments c.package
  TEST_ROOT ++ package_dir ++ [c.test_class_name ++ ".java"]

/-- Modelled from the spec: the `testPath` the specification describes, namely
the test root, the package as path segments, and `testName` carrying the
extension of the unit's source file (the code's `test_path` is compared with
this one). -/
def spec_test_path (c : Component) : List String :=
  TEST_ROOT ++ (if c.package = "" then [] else pkgSegments c.package)
    ++ [c.name ++ "Test" ++ suffixOf c.file_path]

/-- The baseline import list of `generate_imports`. -/
def baselineImports : List String :=
  ["org.junit.Test", "org.junit.runner.RunWith", "org.junit.Assert",
   "org.mockito.Mock", "org.mockito.Mockito", "org.mockito.junit.MockitoJUnitRunner"]

/-- Insert into a strictly sorted list, dropping duplicates. -/
def insSorted (x : String) : List String → List String
  | [] => [x]
  | y :: ys =>
    if x < y then x :: y :: ys
    else if x = y then y :: ys
    else y :: insSorted x ys

/-- Python `sorted(set(l))`: the distinct elements in increasing order. -/
def sortedDedup (l : List String) : List String := l.foldr insSorted []

/-- The import list of `generate_imports` before `sorted(set(...))`. -/
def importsList (c : Component) : List String :=
  baselineImports
  ++ (if c.type = "Activity" ∨ c.type = "Service" ∨ c.type = "BroadcastReceiver" then
        ["android.content.Context", "android.content.Intent", "android.util.Log"] else [])
  ++ (if c.type = "BroadcastReceiver" then ["android.content.BroadcastReceiver"] else [])
  ++ (if c.type = "Activity" then ["android.app.Activity"] else [])
  ++ (if c.type = "Service" then ["android.app.Service"] else [])
  ++ (if c.type = "ViewModel" then
        ["androidx.lifecycle.ViewModel", "androidx.lifecycle.SavedStateHandle"] else [])
  ++ [c.qualified_name]

/-- `generate_imports`: build the list, then `sorted(set(imports))`. -/
def generate_imports (c : Component) : List String := sortedDedup (importsList c)

/-- `generate_valid_invalid_tests` (literal braces written with escapes). -/
def generate_valid_invalid_tests (c : Component) : String :=
  let valid_test :=
    "\n    @Test\n    public void resolvesClassByName() throws Exception \x7b\n        Class<?> clazz = Class.forName(\"" ++ c.qualified_name
      ++ "\");\n        Assert.assertNotNull(clazz);\n    \x7d\n    "
  let invalid_test :=
    "\n    @Test(expected = ClassNotFoundException.class)\n    public void invalidClassNameThrows() throws Exception \x7b\n        Class.forName(\"" ++ c.qualified_name
      ++ "_Missing\");\n    \x7d\n    "
  valid_test ++ "\n" ++ invalid_test

/-- `generate_mockito_test`. -/
def generate_mockito_test (c : Component) : String :=
  let target_name := c.name
  let base_mock := target_name ++ " instance = Mockito.mock(" ++ target_name
    ++ ".class, Mockito.withSettings().lenient());"
  let context_setup :=
    if c.type = "Activity" ∨ c.type = "Service" ∨ c.type = "BroadcastReceiver" then
      "Mockito.when(context.getApplicationContext()).thenReturn(context);"
    else ""
  let collaborator :=
    if c.type = "ViewModel" then "SavedStateHandle handle = new SavedStateHandle();"
    else "Intent intent = Mockito.mock(Intent.class);"
  "\n    @Test\n    public void canCreateLenientMockitoDouble() \x7b\n        " ++ base_mock
    ++ "\n        " ++ context_setup ++ "\n        " ++ collaborator
    ++ "\n        Assert.assertNotNull(instance);\n    \x7d\n    "

/-- `test_body`: the two test blocks joined by a newline. -/
def test_body (c : Component) : String :=
  generate_valid_invalid_tests c ++ "\n" ++ generate_mockito_test c

/-- `test_class`: the complete generated test-source text. -/
def test_class (c : Component) : String :=
  let imports := String.intercalate ("\n")
    ((generate_imports c).map (fun item => "import " ++ item ++ ";"))
  let body := test_body c
  let package_line := if c.package = "" then "" else "package " ++ c.package ++ ";"
  let mocks :=
    if c.type = "ViewModel" then "    @Mock SavedStateHandle savedStateHandle;\n"
    else if c.type = "BroadcastReceiver" ∨ c.type = "Activity" ∨ c.type = "Service" then
      "\n    @Mock Context context;\n    " ++ "    @Mock Intent intent;\n"
    else "\n    @Mock Context context;\n    "
  "\n" ++ package_line ++ "\n\n" ++ imports
    ++ "\n\n@RunWith(MockitoJUnitRunner.class)\npublic class " ++ c.test_class_name
    ++ " \x7b\n" ++ mocks ++ "\n" ++ body ++ "\n\x7d\n"

/-- The filesystem seen by the writer: file paths (segment lists) with their
contents, newest entry first. -/
abbrev FS := List (List String × String)

def lookupFS (fs : FS) (p : List String) : Option String :=
  (fs.find? (fun e => e.1 == p)).map (fun e => e.2)

/-- The outcome of `write_tests`: the filesystem, the returned `written` list,
and the destinations reported as skipped. -/
structure WriteResult where
  fs : FS
  written : List (List String)
  skipped : List (List String)
deriving DecidableEq, Repr

/-- `write_tests`: for each component, skip when the destination exists and
`force` is false, otherwise overwrite the destination with the generated text
and record the path.  Directory creation (`ensure_directory`) has no
observable effect in this filesystem model. -/
def write_tests (fs : FS) (components : List Component) (force : Bool) : WriteResult :=
  components.foldl (fun acc c =>
    let destination := c.test_path
    let content := test_class c
    if (lookupFS acc.fs destination).isSome && !force then
      { acc with skipped := acc.skipped ++ [destination] }
    else
      { fs := (destination, content) :: acc.fs.filter (fun e => e.1 != destination),
        written := acc.written ++ [destination],
        skipped := acc.skipped })
    (WriteResult.mk fs [] [])

/-- `JACOCO_SNIPPET` (apostrophes and braces written with escapes). -/
def JACOCO_SNIPPET : String :=
  "\n// Added by android_component_test_generator.py\nplugins \x7b id \x27jacoco\x27 \x7d\n\njacoco \x7b\n    toolVersion = \"0.8.10\"\n\x7d\n\ntasks.withType(Test) \x7b\n    finalizedBy jacocoTestReport\n\x7d\n\njacocoTestReport \x7b\n    dependsOn test\n    reports \x7b\n        xml.required = true\n        csv.required = false\n        html.required = true\n    \x7d\n\x7d\n"

/-- Python `tok in content`: `tok` occurs as a contiguous substring. -/
def isSubstring (pat : List Char) : List Char → Bool
  | [] => pat.isPrefixOf []
  | c :: rest => pat.isPrefixOf (c :: rest) || isSubstring pat rest

def containsTok (content tok : String) : Bool := isSubstring tok.data content.data

/-- Python `str.rstrip()` (ASCII whitespace). -/
def rstrip (s : String) : String :=
  String.mk (s.data.reverse.dropWhile isPySpace).reverse

/-- `ensure_jacoco` on the text of an existing build file: no-op when both
marker tokens occur, otherwise `content.rstrip() + "\n\n" + JACOCO_SNIPPET`. -/
def ensure_jacoco (content : String) : String :=
  if containsTok content ("jacocoTestReport") && containsTok content ("jacoco") then content
  else rstrip content ++ "\n\n" ++ JACOCO_SNIPPET

/-- `CoverageSummary`; the Python `float` counters are modelled as rationals
(the parsed JaCoCo attributes are non-negative integer counts). -/
structure CoverageSummary where
  covered : ℚ
  missed : ℚ

def CoverageSummary.total (s : CoverageSummary) : ℚ := s.covered + s.missed

/-- `coverage_pct`: `0.0 if self.total == 0 else (self.covered / self.total) * 100`. -/
def CoverageSummary.coverage_pct (s : CoverageSummary) : ℚ :=
  if s.total = 0 then 0 else s.covered / s.total * 100

/-! ## Concrete example values used by witnesses -/

def exampleText : String := "package a.b\nclass C extends Activity"

def exampleComponent : Component := Component.mk ("C") ("a.b") ("C.java") ("Activity")

def ktComponent : Component := Component.mk ("Login") ("com.app") ("src/Login.kt") ("Activity")

/-! ## Helper lemmas -/

theorem str_append_assoc (a b c : String) : a ++ b ++ c = a ++ (b ++ c) := by
  apply String.ext
  simp [String.data_append]

/-! ## C5: qualified name -/

/-- C5: for every unit, `qualifiedName` equals `package + "." + name` when the
package is non-empty, and equals `name` when the package is empty. -/
theorem qualified_name_spec (c : Component) :
    (c.package ≠ "" → c.qualified_name = c.package ++ "." ++ c.name)
    ∧ (c.package = "" → c.qualified_name = c.name) := by
  unfold Component.qualified_name
  constructor
  · intro h
    rw [if_neg h]
  · intro h
    rw [if_pos h]

theorem qualified_name_spec_witness :
    exampleComponent.package ≠ "" ∧
      exampleComponent.qualified_name = "a.b" ++ "." ++ "C" :=
  ⟨by decide, (qualified_name_spec exampleComponent).1 (by decide)⟩

/-! ## C3: coverage percentage -/

/-- C3: for non-negative covered/missed counts, the percentage is exactly `0`
when `covered + missed = 0`, is `covered/(covered+missed)*100` otherwise, and
lies in `[0, 100]` whenever the total is positive. -/
theorem coverage_pct_spec (s : CoverageSummary) (hc : 0 ≤ s.covered) (hm : 0 ≤ s.missed) :
    (s.total = 0 → s.coverage_pct = 0)
    ∧ (s.total ≠ 0 → s.coverage_pct = s.covered / (s.covered + s.missed) * 100)
    ∧ (0 < s.total → 0 ≤ s.coverage_pct ∧ s.coverage_pct ≤ 100) := by
  refine ⟨fun h => ?_, fun h => ?_, fun h => ?_⟩
  · simp [CoverageSummary.coverage_pct, h]
  · simp only [CoverageSummary.coverage_pct, if_neg h]
    rfl
  · have hne : s.total ≠ 0 := ne_of_gt h
    have hle : s.covered ≤ s.total := le_add_of_nonneg_right hm
    simp only [CoverageSummary.coverage_pct, if_neg hne]
    constructor
    · exact mul_nonneg (div_nonneg hc (le_of_lt h)) (by norm_num)
    · calc s.covered / s.total * 100 ≤ 1 * 100 :=
            mul_le_mul_of_nonneg_right ((div_le_one h).mpr hle) (by norm_num)
        _ = 100 := by norm_num

theorem coverage_pct_spec_witness :
    (0 : ℚ) ≤ (CoverageSummary.mk 80 20).covered ∧
      (CoverageSummary.mk 80 20).coverage_pct = 80 / (80 + 20) * 100 :=
  ⟨by norm_num,
   (coverage_pct_spec (CoverageSummary.mk 80 20) (by norm_num) (by norm_num)).2.1
     (by norm_num [CoverageSummary.total])⟩

/-! ## C4: determinism of the scaffold generator -/

/-- C4: scaffold generation is a pure function of the unit: two calls on an
identical unit value yield byte-identical test-source text. -/
theorem generator_deterministic (u1 u2 : Component) (h : u1 = u2) :
    test_class u1 = test_class u2 := by
  rw [h]

theorem generator_deterministic_witness :
    exampleComponent = exampleComponent ∧
      test_class exampleComponent = test_class exampleComponent :=
  ⟨rfl, generator_deterministic exampleComponent exampleComponent rfl⟩

/-! ## C2: test path -/

/-- C2 counterexample: for a unit discovered in a Kotlin source file the
code's `test_path` does not carry the source file's extension; its last
segment always ends in `.java`. -/
theorem testpath_extension_counterexample :
    ktComponent.test_path ≠ spec_test_path ktComponent := by
  decide

/-- C2 (amended): for every unit, the test path is the canonical test root
`app/src/test/java`, then the package converted to path segments (an empty
package contributing no segments), then the test class name (`name + "Test"`)
with the fixed extension `.java` — regardless of the source file's
extension. -/
theorem testpath_canonical (c : Component) :
    (c.package = "" → c.test_path = TEST_ROOT ++ [c.name ++ "Test.java"])
    ∧ (c.package ≠ "" → c.test_path = TEST_ROOT ++ pkgSegments c.package ++ [c.name ++ "Test.java"]) := by
  have hj : ("Test" : String) ++ ".java" = "Test.java" := by decide
  unfold Component.test_path Component.test_class_name
  constructor
  · intro h
    rw [if_pos h]
    simp [str_append_assoc, hj]
  · intro h
    rw [if_neg h]
    simp [str_append_assoc, hj]

theorem testpath_canonical_witness :
    ktComponent.package ≠ "" ∧
      ktComponent.test_path = TEST_ROOT ++ pkgSegments ("com.app") ++ ["Login" ++ "Test.java"] :=
  ⟨by decide, (testpath_canonical ktComponent).2 (by decide)⟩

/-! ## C9: import list -/

theorem mem_insSorted {a x : String} {l : List String} :
    a ∈ insSorted x l ↔ a = x ∨ a ∈ l := by
  induction l with
  | nil => simp [insSorted]
  | cons y ys ih =>
    by_cases h1 : x < y
    · simp [insSorted, h1]
    · by_cases h2 : x = y
      · subst h2
        simp [insSorted, h1]
        try tauto
      · simp [insSorted, h1, h2, ih]
        tauto

theorem sorted_insSorted {x : String} {l : List String} (h : l.Sorted (· < ·)) :
    (insSorted x l).Sorted (· < ·) := by
  induction l with
  | nil => simp [insSorted]
  | cons y ys ih =>
    rw [List.sorted_cons] at h
    obtain ⟨hy, hys⟩ := h
    by_cases h1 : x < y
    · rw [insSorted, if_pos h1, List.sorted_cons]
      refine ⟨?_, List.sorted_cons.mpr ⟨hy, hys⟩⟩
      intro b hb
      rcases List.mem_cons.mp hb with rfl | hb'
      · exact h1
      · exact lt_trans h1 (hy b hb')
    · by_cases h2 : x = y
      · rw [insSorted, if_neg h1, if_pos h2]
        exact List.sorted_cons.mpr ⟨hy, hys⟩
      · have hyx : y < x := lt_of_le_of_ne (not_lt.mp h1) (Ne.symm h2)
        rw [insSorted, if_neg h1, if_neg h2, List.sorted_cons]
        refine ⟨?_, ih hys⟩
        intro b hb
        rcases mem_insSorted.mp hb with rfl | hb'
        · exact hyx
        · exact hy b hb'

theorem sorted_sortedDedup (l : List String) : (sortedDedup l).Sorted (· < ·) := by
  induction l with
  | nil => simp [sortedDedup]
  | cons x xs ih => exact sorted_insSorted ih

theorem nodup_sortedDedup (l : List String) : (sortedDedup l).Nodup :=
  (sorted_sortedDedup l).imp (fun h => ne_of_lt h)

theorem mem_sortedDedup {a : String} {l : List String} :
    a ∈ sortedDedup l ↔ a ∈ l := by
  induction l with
  | nil => simp [sortedDedup]
  | cons x xs ih =>
    show a ∈ insSorted x (sortedDedup xs) ↔ _
    rw [mem_insSorted, ih]
    simp

/-- C9: for every unit, the generated import list is strictly sorted in
lexicographic order (hence deduplicated), contains the fixed baseline
test-framework imports, the kind-specific extension sets, and the unit's own
qualified name. -/
theorem imports_sorted_complete (c : Component) :
    (generate_imports c).Sorted (· < ·)
    ∧ (generate_imports c).Nodup
    ∧ (∀ x ∈ baselineImports, x ∈ generate_imports c)
    ∧ (c.type = "Activity" ∨ c.type = "Service" ∨ c.type = "BroadcastReceiver" →
        "android.content.Context" ∈ generate_imports c
        ∧ "android.content.Intent" ∈ generate_imports c)
    ∧ (c.type = "ViewModel" →
        "androidx.lifecycle.ViewModel" ∈ generate_imports c
        ∧ "androidx.lifecycle.SavedStateHandle" ∈ generate_imports c)
    ∧ c.qualified_name ∈ generate_imports c := by
  refine ⟨sorted_sortedDedup _, nodup_sortedDedup _, ?_, ?_, ?_, ?_⟩
  · intro x hx
    rw [generate_imports, mem_sortedDedup, importsList]
    simp only [List.mem_append]
    tauto
  · intro h
    constructor <;>
    · rw [generate_imports, mem_sortedDedup, importsList]
      rcases h with h | h | h <;> simp [h]
  · intro h
    constructor <;>
    · rw [generate_imports, mem_sortedDedup, importsList]
      simp [h]
  · rw [generate_imports, mem_sortedDedup, importsList]
    simp

theorem imports_sorted_complete_witness :
    (exampleComponent.type = "Activity" ∨ exampleComponent.type = "Service"
      ∨ exampleComponent.type = "BroadcastReceiver") ∧
    ("android.content.Context" ∈ generate_imports exampleComponent
      ∧ "android.content.Intent" ∈ generate_imports exampleComponent) :=
  ⟨Or.inl rfl, (imports_sorted_complete exampleComponent).2.2.2.1 (Or.inl rfl)⟩

/-! ## C6: write/skip policy of the scaffold writer -/

theorem write_tests_single (fs : FS) (c : Component) (force : Bool) :
    write_tests fs [c] force =
      if (lookupFS fs c.test_path).isSome && !force then
        WriteResult.mk fs [] [c.test_path]
      else
        WriteResult.mk ((c.test_path, test_class c) :: fs.filter (fun e => e.1 != c.test_path))
          [c.test_path] [] := by
  cases force with
  | true => simp [write_tests]
  | false =>
    cases hl : lookupFS fs c.test_path with
    | none => simp [write_tests, hl]
    | some v => simp [write_tests, hl]

/-- C6: the writer is idempotent by default: a unit whose destination already
exists is skipped under `force = false` (filesystem unchanged, nothing
written, a skip reported); with `force = true` or an absent destination the
generated text is written and the path recorded; and a second `force = false`
run after any first run is a skipping no-op. -/
theorem writer_idempotent (fs : FS) (c : Component) :
    ((lookupFS fs c.test_path).isSome = true →
        write_tests fs [c] false = WriteResult.mk fs [] [c.test_path])
    ∧ (∀ force : Bool, (force = true ∨ lookupFS fs c.test_path = none) →
        lookupFS (write_tests fs [c] force).fs c.test_path = some (test_class c)
        ∧ (write_tests fs [c] force).written = [c.test_path])
    ∧ write_tests (write_tests fs [c] false).fs [c] false
        = WriteResult.mk (write_tests fs [c] false).fs [] [c.test_path] := by
  refine ⟨?_, ?_, ?_⟩
  · intro h
    rw [write_tests_single, if_pos (by simp [h])]
  · intro force hf
    rcases hf with rfl | hnone
    · rw [write_tests_single, if_neg (by simp)]
      exact ⟨by simp [lookupFS], rfl⟩
    · rw [write_tests_single, if_neg (by simp [hnone])]
      exact ⟨by simp [lookupFS], rfl⟩
  · by_cases h : (lookupFS fs c.test_path).isSome = true
    · rw [write_tests_single fs c false, if_pos (by simp [h])]
      rw [write_tests_single, if_pos (by simp [h])]
    · rw [write_tests_single fs c false, if_neg (by simp [h])]
      rw [write_tests_single, if_pos (by simp [lookupFS])]

theorem writer_idempotent_witness :
    (false = true ∨ lookupFS [] exampleComponent.test_path = none) ∧
      lookupFS (write_tests [] [exampleComponent] false).fs exampleComponent.test_path
        = some (test_class exampleComponent)
      ∧ (write_tests [] [exampleComponent] false).written = [exampleComponent.test_path] :=
  ⟨Or.inr rfl, (writer_idempotent [] exampleComponent).2.1 false (Or.inr rfl)⟩

/-! ## C7 and C8: build-file augmentation -/

theorem isSubstring_append_left (p a b : List Char) (h : isSubstring p b = true) :
    isSubstring p (a ++ b) = true := by
  induction a with
  | nil => simpa using h
  | cons c cs ih => simp [isSubstring, ih]

theorem containsTok_append (a b t : String) (h : containsTok b t = true) :
    containsTok (a ++ b) t = true := by
  unfold containsTok at *
  rw [String.data_append]
  exact isSubstring_append_left _ _ _ h

theorem rstrip_decomp (l : List Char) :
    l = (l.reverse.dropWhile isPySpace).reverse ++ (l.reverse.takeWhile isPySpace).reverse := by
  conv_lhs => rw [← List.reverse_reverse l, ← List.takeWhile_append_dropWhile isPySpace l.reverse]
  rw [List.reverse_append]

/-- C7: if both marker tokens already occur in the build file's text,
`ensure_jacoco` leaves it unchanged; consequently running the augmenter twice
never stacks two configuration blocks — the second run is a no-op. -/
theorem jacoco_idempotent (content : String) :
    (containsTok content ("jacocoTestReport") = true →
      containsTok content ("jacoco") = true → ensure_jacoco content = content)
    ∧ ensure_jacoco (ensure_jacoco content) = ensure_jacoco content := by
  have hsnip1 : containsTok JACOCO_SNIPPET ("jacocoTestReport") = true := by decide
  have hsnip2 : containsTok JACOCO_SNIPPET ("jacoco") = true := by decide
  constructor
  · intro h1 h2
    unfold ensure_jacoco
    rw [if_pos (by simp [h1, h2])]
  · by_cases hc : (containsTok content ("jacocoTestReport")
        && containsTok content ("jacoco")) = true
    · have hid : ensure_jacoco content = content := by
        unfold ensure_jacoco
        rw [if_pos hc]
      rw [hid, hid]
    · have hres : ensure_jacoco content = rstrip content ++ "\n\n" ++ JACOCO_SNIPPET := by
        unfold ensure_jacoco
        rw [if_neg hc]
      rw [hres]
      have h1 := containsTok_append (rstrip content ++ "\n\n") JACOCO_SNIPPET _ hsnip1
      have h2 := containsTok_append (rstrip content ++ "\n\n") JACOCO_SNIPPET _ hsnip2
      unfold ensure_jacoco
      rw [if_pos (by simp [h1, h2])]

theorem jacoco_idempotent_witness :
    containsTok JACOCO_SNIPPET ("jacocoTestReport") = true ∧
      ensure_jacoco JACOCO_SNIPPET = JACOCO_SNIPPET :=
  ⟨by decide, (jacoco_idempotent JACOCO_SNIPPET).1 (by decide) (by decide)⟩

/-- C8 counterexample: on a build file whose text has trailing whitespace
(here `"x "`, containing neither marker token) the augmenter first strips the
trailing whitespace, so the new content is not the existing content followed
by a blank line and the block, and the prior content is not preserved as a
prefix. -/
theorem jacoco_append_counterexample :
    ensure_jacoco ("x ") ≠ "x " ++ "\n\n" ++ JACOCO_SNIPPET
    ∧ (("x ").data.isPrefixOf (ensure_jacoco ("x ")).data) = false := by
  constructor
  · decide
  · decide

/-- C8 (amended): when the augmenter modifies the build file, the new content
is the existing content with its trailing whitespace removed, followed by a
blank-line separator and the fixed configuration block; the stripped content
is preserved unchanged as a prefix, and nothing except trailing whitespace
characters is dropped. -/
theorem jacoco_append_preserves (content : String)
    (h : (containsTok content ("jacocoTestReport")
        && containsTok content ("jacoco")) = false) :
    ensure_jacoco content = rstrip content ++ "\n\n" ++ JACOCO_SNIPPET
    ∧ (rstrip content).data <+: (ensure_jacoco content).data
    ∧ ∃ w : List Char, content.data = (rstrip content).data ++ w
        ∧ ∀ ch ∈ w, isPySpace ch = true := by
  have hres : ensure_jacoco content = rstrip content ++ "\n\n" ++ JACOCO_SNIPPET := by
    unfold ensure_jacoco
    rw [if_neg (by simp [h])]
  refine ⟨hres, ?_, ?_⟩
  · rw [hres, String.data_append, String.data_append, List.append_assoc]
    exact List.prefix_append _ _
  · refine ⟨(content.data.reverse.takeWhile isPySpace).reverse, rstrip_decomp content.data, ?_⟩
    intro ch hch
    exact List.mem_takeWhile_imp (List.mem_reverse.mp hch)

theorem jacoco_append_preserves_witness :
    (containsTok ("x ") ("jacocoTestReport") && containsTok ("x ") ("jacoco")) = false ∧
      ensure_jacoco ("x ") = rstrip ("x ") ++ "\n\n" ++ JACOCO_SNIPPET :=
  ⟨by decide, (jacoco_append_preserves ("x ") (by decide)).1⟩

/-! ## C10: classification invariants -/

/-- C10: every component returned by one call of `parse_component_file`
carries the same package (extracted once from the text, empty when no package
declaration matches) and the same source path (the input path), and the
returned sequence never holds more than four components. -/
theorem classifier_invariants (path text : String) :
    (parse_component_file path text).length ≤ 4
    ∧ (∀ c ∈ parse_component_file path text,
        c.package = extractPackage text ∧ c.file_path = path)
    ∧ (group1 (reSearch packagePat text) = none → extractPackage text = "") := by
  refine ⟨?_, ?_, ?_⟩
  · unfold parse_component_file
    split
    · exact le_trans (List.length_filterMap_le _ _) (by decide)
    · simp
  · intro c hc
    unfold parse_component_file at hc
    split at hc
    · rw [List.mem_filterMap] at hc
      obtain ⟨tp, _, heq⟩ := hc
      rw [Option.map_eq_some'] at heq
      obtain ⟨cs, _, hcomp⟩ := heq
      rw [← hcomp]
      exact ⟨rfl, rfl⟩
    · simp at hc
  · intro h
    unfold extractPackage
    rw [h]

set_option maxRecDepth 4000 in
theorem classifier_invariants_witness :
    exampleComponent ∈ parse_component_file ("C.java") exampleText ∧
      exampleComponent.package = extractPackage exampleText
      ∧ exampleComponent.file_path = "C.java" :=
  ⟨by decide,
   (classifier_invariants ("C.java") exampleText).2.1 exampleComponent (by decide)⟩

/-! ## C1: one fragment per kind -/

/-- C1: the classifier returns at most one fragment per kind (the kinds of
the returned fragments are pairwise distinct); a text in which none of the
four patterns finds a match yields the empty sequence; and for each kind
whose pattern does find a (leftmost) match, the result contains the fragment
with that kind, the match's captured class name and the extracted package. -/
theorem classifier_per_kind (path text : String)
    (hext : SUPPORTED_EXTENSIONS.contains (suffixOf path) = true) :
    ((parse_component_file path text).map (fun c => c.type)).Nodup
    ∧ ((group1 (reSearch activityPat text) = none ∧ group1 (reSearch servicePat text) = none
        ∧ group1 (reSearch receiverPat text) = none ∧ group1 (reSearch viewModelPat text) = none)
        → parse_component_file path text = [])
    ∧ (∀ n, group1 (reSearch activityPat text) = some n →
        Component.mk (String.mk n) (extractPackage text) path ("Activity")
          ∈ parse_component_file path text)
    ∧ (∀ n, group1 (reSearch servicePat text) = some n →
        Component.mk (String.mk n) (extractPackage text) path ("Service")
          ∈ parse_component_file path text)
    ∧ (∀ n, group1 (reSearch receiverPat text) = some n →
        Component.mk (String.mk n) (extractPackage text) path ("BroadcastReceiver")
          ∈ parse_component_file path text)
    ∧ (∀ n, group1 (reSearch viewModelPat text) = some n →
        Component.mk (String.mk n) (extractPackage text) path ("ViewModel")
          ∈ parse_component_file path text) := by
  have hpcf : parse_component_file path text =
      COMPONENT_PATTERNS.filterMap (fun tp =>
        (group1 (reSearch tp.2 text)).map (fun cs =>
          Component.mk (String.mk cs) (extractPackage text) path tp.1)) := by
    unfold parse_component_file
    rw [if_pos hext]
  rw [hpcf]
  rcases hA : group1 (reSearch activityPat text) with _ | nA <;>
  rcases hS : group1 (reSearch servicePat text) with _ | nS <;>
  rcases hB : group1 (reSearch receiverPat text) with _ | nB <;>
  rcases hV : group1 (reSearch viewModelPat text) with _ | nV <;>
  simp [COMPONENT_PATTERNS, List.filterMap_cons, hA, hS, hB, hV]

set_option maxRecDepth 4000 in
theorem classifier_per_kind_witness :
    SUPPORTED_EXTENSIONS.contains (suffixOf ("C.java")) = true ∧
      Component.mk (String.mk (("C").data)) (extractPackage exampleText) ("C.java") ("Activity")
        ∈ parse_component_file ("C.java") exampleText :=
  ⟨by decide,
   (classifier_per_kind ("C.java") exampleText (by decide)).2.2.1 (("C").data) (by decide)⟩
